import Mathlib

/-!
Verification of the WineSave backup manager (Go sources `main.go`, `pcgw.go`)
against its natural-language specification.

Shallow embedding conventions:
* Go strings are modelled as `List Char` (`Str`); all inputs exercised here are
  ASCII, where this model agrees byte-for-byte with Go's byte strings.
* The Go standard-library string functions used by the program
  (`strings.Contains`, `strings.ReplaceAll`, `strings.Split` on a one-character
  separator, `strings.TrimSpace`, `strings.Trim`, `strings.ToLower`,
  `strings.Fields`, `strings.Index`, `strings.HasPrefix`, `filepath.Match`)
  are re-implemented below with the `go…` prefix, faithful to the Go
  semantics on the inputs that occur in this program.
* Filesystem and clock effects are modelled by explicit oracle records
  (`FS`, `BackupFS`): each `os.*` call that can fail or return data is a field
  of the oracle, and the embedded functions are pure functions of the oracle.
* The in-memory catalog `map[string]*GameInfo` is modelled as an association
  list with Go map semantics (`mapLookup` / `goMapSet`); pointer mutation of a
  record stored in the map is modelled by re-storing the updated record under
  the same key.
-/

namespace WineSave

/-- Go strings as lists of characters. -/
abbrev Str := List Char

/-- Conversion from a Lean string literal to the `Str` model. -/
def str (s : String) : Str := s.data

/-- Go `strings.Contains s sub`: `sub` occurs as a contiguous substring of `s`
(the empty string occurs in every string). -/
def goContains (s sub : Str) : Bool :=
  match s with
  | [] => sub.isEmpty
  | _ :: cs => sub.isPrefixOf s || goContains cs sub

/-- Characters treated as white space by Go's `unicode.IsSpace`
(restricted to the ASCII range, the only one exercised here). -/
def goIsSpace (c : Char) : Bool :=
  c = ' ' || c = '\t' || c = '\n' || c = '\x0b' || c = '\x0c' || c = '\r'

/-- Go `strings.TrimSpace`: drop white space from both ends. -/
def goTrimSpace (s : Str) : Str :=
  ((s.dropWhile goIsSpace).reverse.dropWhile goIsSpace).reverse

/-- Go `strings.Trim s cutset`: drop characters of `cutset` from both ends. -/
def goTrimChars (s cutset : Str) : Str :=
  ((s.dropWhile (cutset.contains ·)).reverse.dropWhile (cutset.contains ·)).reverse

/-- Go `strings.Split s (string sep)` for a one-character separator: the
pieces of `s` between occurrences of `sep` (always at least one piece). -/
def goSplitChar (sep : Char) : Str → List Str
  | [] => [[]]
  | c :: cs =>
    if c = sep then [] :: goSplitChar sep cs
    else
      match goSplitChar sep cs with
      | [] => [[c]]
      | l :: ls => (c :: l) :: ls

/-- Go `strings.Split s "\n"`, as used on wikitext and path windows. -/
def splitLines (s : Str) : List Str := goSplitChar '\n' s

/-- Scanner for `strings.Replace` with count `-1`: replaces non-overlapping
occurrences of `old` left to right, never rescanning inside a replacement.
`skip` counts characters still to be consumed by the match just replaced. -/
def replaceAux (old new : Str) : Nat → Str → Str
  | _, [] => []
  | 0, c :: cs =>
    if old.isPrefixOf (c :: cs) then new ++ replaceAux old new (old.length - 1) cs
    else c :: replaceAux old new 0 cs
  | k + 1, _ :: cs => replaceAux old new k cs

/-- Go `strings.ReplaceAll s old new` (for empty `old`, Go inserts `new` at
every character boundary, including both ends). -/
def goReplaceAll (s old new : Str) : Str :=
  if old.isEmpty then new ++ s.flatMap (fun c => c :: new)
  else replaceAux old new 0 s

/-- Go `strings.Index s sub`: position of the first occurrence, `none` for Go's
`-1`.  An empty `sub` is found at position `0`. -/
def goIndexAux (sub : Str) : Str → Nat → Option Nat
  | s, i =>
    if sub.isPrefixOf s then some i
    else
      match s with
      | [] => none
      | _ :: cs => goIndexAux sub cs (i + 1)

/-- Go `strings.Index`. -/
def goIndex (s sub : Str) : Option Nat := goIndexAux sub s 0

/-- Go `strings.ToLower` (ASCII). -/
def goToLower (s : Str) : Str := s.map Char.toLower

/-- Accumulator loop of `goFields`; `cur` holds the current word reversed. -/
def goFieldsAux : Str → Str → List Str
  | [], cur => if cur.isEmpty then [] else [cur.reverse]
  | c :: cs, cur =>
    if goIsSpace c then
      if cur.isEmpty then goFieldsAux cs [] else cur.reverse :: goFieldsAux cs []
    else goFieldsAux cs (c :: cur)

/-- Go `strings.Fields`: white-space separated words, no empties. -/
def goFields (s : Str) : List Str := goFieldsAux s []

/-- Fuel-indexed core of `filepath.Match` restricted to patterns made of
literal characters and `*` — the only pattern forms occurring in this
repository (`*` matches any possibly-empty character sequence; file names
contain no path separator).  The fuel only bounds the recursion depth; it is
always called with enough fuel to be exhaustive. -/
def globMatchFuel : Nat → Str → Str → Bool
  | 0, _, _ => false
  | _ + 1, [], [] => true
  | _ + 1, [], _ :: _ => false
  | fuel + 1, p :: ps, s =>
    if p = '*' then
      globMatchFuel fuel ps s ||
        (match s with
         | [] => false
         | _ :: cs => globMatchFuel fuel (p :: ps) cs)
    else
      match s with
      | [] => false
      | c :: cs => p = c && globMatchFuel fuel ps cs

/-- Go `filepath.Match pattern name` for the patterns of this repository.
`pattern.length + name.length + 1` bounds the recursion depth: every step of
`globMatchFuel` shortens the pattern or the name. -/
def globMatch (pattern name : Str) : Bool :=
  globMatchFuel (pattern.length + name.length + 1) pattern name

/-!
Data model of `main.go`.
-/

/-- Go struct `GameInfo` (`main.go`).  `LastBackup` is a timestamp (zero =
never); `Metadata` is modelled as an association list; Go `nil` slices and
maps coincide with the empty list in this model, so the `nil`-initialisation
performed by `LoadDatabase`/`ScanForGames` is the identity here. -/
structure GameInfo where
  id : Str
  name : Str
  savePaths : List Str
  patterns : List Str
  platform : Str
  lastBackup : Nat
  totalSize : Nat
  fileCount : Nat
  customPaths : List Str
  metadata : List (Str × Str)
deriving DecidableEq, Repr

/-- Go struct `BackupConfig` (`main.go`), restricted to the fields the core
algorithms read.  `maxBackups` is a `Nat`: the policy documents
`maxBackupsPerApplication ≥ 1`. -/
structure BackupConfig where
  backupDir : Str
  maxBackups : Nat
  compressionEnabled : Bool
  excludePatterns : List Str
deriving Repr

/-- A directory entry as returned by `os.ReadDir` to the classifier. -/
structure FileEntry where
  name : Str
  isDir : Bool
deriving DecidableEq, Repr

/-- A backup-directory entry with its filesystem modification time, as seen by
`cleanOldBackups` (`fs.DirEntry` plus `Info().ModTime()`). -/
structure BackupEntry where
  name : Str
  modTime : Nat
deriving DecidableEq, Repr

/-- The catalog `map[string]*GameInfo`, as an association list. -/
abbrev Catalog := List (Str × GameInfo)

/-- Go map read `m[k]`. -/
def mapLookup (c : Catalog) (k : Str) : Option GameInfo :=
  match c with
  | [] => none
  | (k', v) :: rest => if k' = k then some v else mapLookup rest k

/-- Go map write `m[k] = v`: replaces the binding when the key is present,
appends it otherwise. -/
def goMapSet (c : Catalog) (k : Str) (v : GameInfo) : Catalog :=
  match c with
  | [] => [(k, v)]
  | (k', v') :: rest => if k' = k then (k, v) :: rest else (k', v') :: goMapSet rest k v

/-- Filesystem oracle for the scanning and catalog operations: each field is
the answer the operating system gives to the corresponding call tree.
`stat p` is true when `os.Stat p` succeeds; `readDir p` is `none` when
`os.ReadDir p` fails; `dirsUnder p` lists the directories visited by
`filepath.WalkDir p` (in visit order); `walkFiles p` lists the non-directory
entries under `p` as (base name, size). -/
structure FS where
  stat : Str → Bool
  readDir : Str → Option (List FileEntry)
  dirsUnder : Str → List Str
  walkFiles : Str → List (Str × Nat)

/-!
Constants and pure functions of `main.go`.
-/

/-- Go global `SaveFilePatterns` (`main.go`). -/
def SaveFilePatterns : List Str :=
  [str "*.sav", str "*.save", str "*.dat", str "*.bin", str "*.cfg",
   str "save*", str "*.slot", str "profile*", str "*.bak",
   str "*.json", str "*.xml", str "*.ini", str "*.txt", str "*.sl2"]

/-- The keyword list of `looksLikeSaveDirectory` (`main.go`). -/
def saveKeywords : List Str :=
  [str "save", str "profile", str "config", str "settings", str "user", str "player"]

/-- Go `ExpandPath` (`main.go`): environment-placeholder substitution.  `env`
models `os.Getenv` (absent variables read as the empty string).  The five
Windows placeholders are replaced unconditionally with the environment value;
the POSIX and XDG substitutions run only when the variable is non-empty. -/
def expandPath (env : Str → Str) (path : Str) : Str :=
  let e1 := goReplaceAll path (str "%USERPROFILE%") (env (str "USERPROFILE"))
  let e2 := goReplaceAll e1 (str "%APPDATA%") (env (str "APPDATA"))
  let e3 := goReplaceAll e2 (str "%LOCALAPPDATA%") (env (str "LOCALAPPDATA"))
  let e4 := goReplaceAll e3 (str "%PROGRAMFILES%") (env (str "PROGRAMFILES"))
  let e5 := goReplaceAll e4 (str "%PROGRAMFILES(X86)%") (env (str "PROGRAMFILES(X86)"))
  let home := env (str "HOME")
  let e6 :=
    if home.isEmpty then e5
    else goReplaceAll (goReplaceAll e5 (str "~") home) (str "$HOME") home
  let xdgConfig := env (str "XDG_CONFIG_HOME")
  let e7 := if xdgConfig.isEmpty then e6 else goReplaceAll e6 (str "$XDG_CONFIG_HOME") xdgConfig
  let xdgData := env (str "XDG_DATA_HOME")
  if xdgData.isEmpty then e7 else goReplaceAll e7 (str "$XDG_DATA_HOME") xdgData

/-- Per-file score increment of `looksLikeSaveDirectory` (`main.go`): the two
inner loops each add at most one (they `break` on the first hit), so a file
matching both a pattern and a keyword contributes two. -/
def fileScore (fileName : Str) : Nat :=
  (if SaveFilePatterns.any (fun pat => globMatch (goToLower pat) fileName) then 1 else 0) +
  (if saveKeywords.any (fun kw => goContains fileName kw) then 1 else 0)

/-- The compound decision rule at the end of `looksLikeSaveDirectory`
(`main.go` line 643). -/
def classifierDecision (totalFiles saveFileCount : Nat) : Bool :=
  decide (saveFileCount ≥ 1) ||
    (decide (totalFiles > 0) && decide (totalFiles < 20) && decide (saveFileCount > 0))

/-- Loop body of `looksLikeSaveDirectory` (`main.go`): directories are
skipped; files add their score and bump the file total.  The accumulator is
(saveFileCount, totalFiles). -/
def classifierStep (acc : Nat × Nat) (file : FileEntry) : Nat × Nat :=
  if file.isDir then acc
  else (acc.1 + fileScore (goToLower file.name), acc.2 + 1)

/-- Go `looksLikeSaveDirectory` (`main.go`): the argument is the `os.ReadDir`
result, `none` on enumeration error. -/
def looksLikeSaveDirectory (listing : Option (List FileEntry)) : Bool :=
  match listing with
  | none => false
  | some files =>
    let counts := files.foldl classifierStep (0, 0)
    classifierDecision counts.2 counts.1

/-- Character cleaning of `generateGameID`: the regex
`[^a-zA-Z0-9\-_]` replaces every character outside the class with a dash. -/
def idChar (c : Char) : Char :=
  if ('a' ≤ c ∧ c ≤ 'z') ∨ ('A' ≤ c ∧ c ≤ 'Z') ∨ ('0' ≤ c ∧ c ≤ '9') ∨ c = '-' ∨ c = '_'
  then c else '-'

/-- Go `generateGameID` (`main.go`).  Paths are modelled in
`filepath.Clean`ed form with `/` as `os.PathSeparator`, so the `Clean` call is
the identity here; `strings.Split` always returns at least one piece, so the
`len(parts) > 0` guard and its `unknown-game` fallback are unreachable and
omitted. -/
def generateGameID (path : Str) : Str :=
  let parts := goSplitChar '/' path
  let gameName := parts.getLastD []
  let id := (goToLower gameName).map idChar
  goTrimChars id (str "-")

/-- Go `inferGameName` (`main.go`): last path component, separators to
spaces, each word capitalised.  Same modelling notes as `generateGameID`. -/
def inferGameName (path : Str) : Str :=
  let parts := goSplitChar '/' path
  let name0 := parts.getLastD []
  let name1 := goReplaceAll name0 (str "_") (str " ")
  let name2 := goReplaceAll name1 (str "-") (str " ")
  let words := goFields name2
  let capWords := words.map
    (fun w => match w with
      | [] => []
      | c :: cs => Char.toUpper c :: goToLower cs)
  List.intercalate (str " ") capWords

/-- Go method `matchesPatterns` (`main.go`). -/
def matchesPatterns (filename : Str) (patterns : List Str) : Bool :=
  patterns.any (fun pat => globMatch (goToLower pat) (goToLower filename))

/-- Go method `isExcluded` (`main.go`). -/
def isExcluded (cfg : BackupConfig) (filename : Str) : Bool :=
  cfg.excludePatterns.any (fun pat => globMatch (goToLower pat) (goToLower filename))

/-- Go method `gameExists` (`main.go`): some save path expands to an existing
location. -/
def gameExists (env : Str → Str) (fs : FS) (game : GameInfo) : Bool :=
  game.savePaths.any (fun p => fs.stat (expandPath env p))

/-- Go method `updateGameInfo` (`main.go`): recompute `TotalSize` and
`FileCount` by walking every save path and filtering file names through the
game's patterns minus the exclude patterns.  Its `WalkDir` callback always
returns `nil`, so the Go function never returns an error and only these two
fields change. -/
def updateGameInfo (env : Str → Str) (fs : FS) (cfg : BackupConfig) (game : GameInfo) : GameInfo :=
  let files := game.savePaths.flatMap (fun sp => fs.walkFiles (expandPath env sp))
  let selected := files.filter
    (fun f => matchesPatterns f.1 game.patterns && !isExcluded cfg f.1)
  { game with totalSize := (selected.map (fun f => f.2)).sum, fileCount := selected.length }

/-- Go global `KnownGames` (`main.go`): the seven built-in records (numeric
fields take Go zero values). -/
def KnownGames : List (Str × GameInfo) :=
  [(str "elden-ring",
    { id := str "elden-ring", name := str "Elden Ring", platform := str "steam",
      savePaths := [str "%APPDATA%/EldenRing"], patterns := [str "*.sl2"],
      lastBackup := 0, totalSize := 0, fileCount := 0, customPaths := [],
      metadata := [(str "publisher", str "FromSoftware"), (str "genre", str "Action RPG")] }),
   (str "dark-souls-3",
    { id := str "dark-souls-3", name := str "Dark Souls III", platform := str "steam",
      savePaths := [str "%APPDATA%/DarkSoulsIII"], patterns := [str "*.sl2"],
      lastBackup := 0, totalSize := 0, fileCount := 0, customPaths := [],
      metadata := [(str "publisher", str "FromSoftware"), (str "genre", str "Action RPG")] }),
   (str "cyberpunk-2077",
    { id := str "cyberpunk-2077", name := str "Cyberpunk 2077", platform := str "multiple",
      savePaths := [str "%USERPROFILE%/Saved Games/CD Projekt Red/Cyberpunk 2077"],
      patterns := [str "*.dat", str "*.json"],
      lastBackup := 0, totalSize := 0, fileCount := 0, customPaths := [],
      metadata := [(str "publisher", str "CD Projekt RED"), (str "genre", str "Action RPG")] }),
   (str "witcher-3",
    { id := str "witcher-3", name := str "The Witcher 3: Wild Hunt", platform := str "multiple",
      savePaths := [str "%USERPROFILE%/Documents/The Witcher 3"], patterns := [str "*.sav"],
      lastBackup := 0, totalSize := 0, fileCount := 0, customPaths := [],
      metadata := [(str "publisher", str "CD Projekt RED"), (str "genre", str "Action RPG")] }),
   (str "skyrim-se",
    { id := str "skyrim-se", name := str "The Elder Scrolls V: Skyrim Special Edition",
      platform := str "steam",
      savePaths := [str "%USERPROFILE%/Documents/My Games/Skyrim Special Edition"],
      patterns := [str "*.ess", str "*.skse"],
      lastBackup := 0, totalSize := 0, fileCount := 0, customPaths := [],
      metadata := [(str "publisher", str "Bethesda"), (str "genre", str "Action RPG")] }),
   (str "fallout-4",
    { id := str "fallout-4", name := str "Fallout 4", platform := str "steam",
      savePaths := [str "%USERPROFILE%/Documents/My Games/Fallout4"],
      patterns := [str "*.fos", str "*.f4se"],
      lastBackup := 0, totalSize := 0, fileCount := 0, customPaths := [],
      metadata := [(str "publisher", str "Bethesda"), (str "genre", str "Action RPG")] }),
   (str "minecraft",
    { id := str "minecraft", name := str "Minecraft", platform := str "multiple",
      savePaths := [str "%APPDATA%/.minecraft/saves"],
      patterns := [str "level.dat", str "*.mca", str "*.dat"],
      lastBackup := 0, totalSize := 0, fileCount := 0, customPaths := [],
      metadata := [(str "publisher", str "Mojang Studios"), (str "genre", str "Sandbox")] })]

/-- Go global `CommonSavePaths` (`main.go`).  Go iterates this map in an
unspecified order; the source order is fixed here, and the theorem below does
not depend on it. -/
def CommonSavePaths : List (Str × List Str) :=
  [(str "steam",
    [str "%USERPROFILE%/Documents/My Games", str "%APPDATA%", str "%LOCALAPPDATA%",
     str "%USERPROFILE%/Saved Games",
     str "C:/Program Files (x86)/Steam/userdata", str "C:/Program Files/Steam/userdata"]),
   (str "epic",
    [str "%LOCALAPPDATA%/EpicGamesLauncher/Saved", str "%USERPROFILE%/Documents/My Games"]),
   (str "uplay",
    [str "%USERPROFILE%/Documents/My Games", str "%APPDATA%/Ubisoft"]),
   (str "origin",
    [str "%USERPROFILE%/Documents/Electronic Arts", str "%LOCALAPPDATA%/Electronic Arts"]),
   (str "gog",
    [str "%USERPROFILE%/Documents/My Games", str "%APPDATA%/GOG.com"]),
   (str "xbox",
    [str "%LOCALAPPDATA%/Packages", str "%USERPROFILE%/Documents/My Games"])]

/-- First loop of `ScanForGames` (`main.go`): seed the catalog with known
games that exist on disk, skipping ids already present.  The `nil`-map
initialisation of the copied record is the identity in this model. -/
def scanKnown (env : Str → Str) (fs : FS) (catalog : Catalog) : Catalog :=
  KnownGames.foldl
    (fun c idGame =>
      if (mapLookup c idGame.1).isSome then c
      else if gameExists env fs idGame.2 then goMapSet c idGame.1 idGame.2
      else c)
    catalog

/-- Go method `scanDirectory` (`main.go`): walk `path` (skipped when it does
not exist), and for every visited directory that classifies as a save
directory, insert a fresh record unless its id is already present.  Per-entry
walk errors are swallowed (`return nil`), which the `dirsUnder` oracle models
by simply not listing unreadable entries. -/
def scanDirectory (fs : FS) (path platform : Str) (catalog : Catalog) :
    Catalog :=
  if fs.stat path = false then catalog
  else
    (fs.dirsUnder path).foldl
      (fun c dir =>
        if looksLikeSaveDirectory (fs.readDir dir) then
          let gameID := generateGameID dir
          if (mapLookup c gameID).isSome then c
          else
            goMapSet c gameID
              { id := gameID, name := inferGameName dir, platform := platform,
                savePaths := [dir], patterns := SaveFilePatterns,
                lastBackup := 0, totalSize := 0, fileCount := 0,
                customPaths := [], metadata := [] }
        else c)
      catalog

/-- Go method `ScanForGames` (`main.go`): known-game seeding, common-location
scanning, then a stats refresh of every record.  The returned `ScanResult`
bookkeeping (`NewGames`/`Updated`/`Errors`/counts) neither reads nor writes
the catalog and is omitted; the function returns the resulting catalog. -/
def scanForGames (env : Str → Str) (fs : FS) (cfg : BackupConfig) (catalog : Catalog) :
    Catalog :=
  let c1 := scanKnown env fs catalog
  let c2 := CommonSavePaths.foldl
    (fun c platformPaths =>
      platformPaths.2.foldl
        (fun c' basePath => scanDirectory fs (expandPath env basePath) platformPaths.1 c')
        c)
    c1
  c2.map (fun entry => (entry.1, updateGameInfo env fs cfg entry.2))

/-!
Retention pruning (`cleanOldBackups`, `main.go`).
-/

/-- One step of the descending insertion used to model `sort.Slice` with the
comparator `ModTime(i).After(ModTime(j))` (most recent first). -/
def insertByModTimeDesc (e : BackupEntry) : List BackupEntry → List BackupEntry
  | [] => [e]
  | f :: fs => if f.modTime < e.modTime then e :: f :: fs else f :: insertByModTimeDesc e fs

/-- Sort most-recent-first.  For pairwise distinct modification times every
correct sort for this comparator, in particular Go's `sort.Slice`, produces
this unique strictly-descending ordering. -/
def sortByModTimeDesc (files : List BackupEntry) : List BackupEntry :=
  files.foldr insertByModTimeDesc []

/-- Go method `cleanOldBackups` (`main.go`), as the list of entries it
removes from the application's backup directory: filter the listing to names
containing the application id, return early when at most `maxBackups` remain,
otherwise delete the sorted tail from index `maxBackups` on.  (Per-entry
`os.RemoveAll` failures are logged and do not affect the selection.) -/
def cleanOldBackups (maxBackups : Nat) (gameID : Str) (files : List BackupEntry) :
    List BackupEntry :=
  let backupFiles := files.filter (fun f => goContains f.name gameID)
  if backupFiles.length ≤ maxBackups then []
  else (sortByModTimeDesc backupFiles).drop maxBackups

/-!
Archive engine (`CreateBackup`, `main.go`).
-/

/-- Effect oracle for one `CreateBackup` run: the outcome of each filesystem
step, in program order.  `backupDirListing` is the `os.ReadDir` of the
application's backup subdirectory seen by `cleanOldBackups` (`none` =
enumeration error); `now` is the clock read used for the timestamp and the
`LastBackup` stamp. -/
structure BackupFS where
  mkdirErr : Option Str
  zipErr : Option Str
  mkdirBackupPathErr : Option Str
  folderErr : Option Str
  backupDirListing : Option (List BackupEntry)
  saveDbErr : Option Str
  now : Nat

/-- Outcome of the archive-creation steps of `CreateBackup`: the zip branch
when compression is enabled, otherwise `os.MkdirAll` of the timestamped
directory followed by the folder copy. -/
def archiveOutcome (cfg : BackupConfig) (eff : BackupFS) : Option Str :=
  if cfg.compressionEnabled then eff.zipErr
  else
    match eff.mkdirBackupPathErr with
    | some e => some e
    | none => eff.folderErr

/-- Error side of `cleanOldBackups`: only the initial `os.ReadDir` failure is
returned; removal failures are logged inside the loop and never returned. -/
def cleanOldBackupsErr (eff : BackupFS) : Option Str :=
  match eff.backupDirListing with
  | none => some (str "error leyendo directorio de backups")
  | some _ => none

/-- Go method `CreateBackup` (`main.go`): resolve the record, run the archive
steps, stamp `LastBackup`, invoke pruning best-effort (its error only joins
the log list), and return the `SaveDatabase` outcome.  Result: (returned
error, resulting catalog, logged messages). -/
def createBackup (cfg : BackupConfig) (eff : BackupFS) (catalog : Catalog) (gameID : Str) :
    Option Str × Catalog × List Str :=
  match mapLookup catalog gameID with
  | none => (some (str "juego con ID " ++ gameID ++ str " no encontrado"), catalog, [])
  | some game =>
    match eff.mkdirErr with
    | some e => (some (str "error creando directorio de backup: " ++ e), catalog, [])
    | none =>
      match archiveOutcome cfg eff with
      | some e => (some e, catalog, [])
      | none =>
        let catalog' := goMapSet catalog gameID { game with lastBackup := eff.now }
        let logs :=
          match cleanOldBackupsErr eff with
          | some e => [str "Error limpiando backups antiguos: " ++ e]
          | none => []
        (eff.saveDbErr, catalog', logs)

/-!
Catalog operations (`AddCustomGame`, `ValidateGamePaths`, `main.go`).
-/

/-- Go method `AddCustomGame` (`main.go`): derive the id from the save path,
reject a save path whose expansion does not exist before touching the
catalog, otherwise insert the record, refresh its stats (`updateGameInfo`
never returns an error, see its docstring) and return the `SaveDatabase`
outcome.  Result: (returned error, resulting catalog). -/
def addCustomGame (cfg : BackupConfig) (env : Str → Str) (fs : FS) (saveDbErr : Option Str)
    (catalog : Catalog) (name savePath : Str) (patterns : List Str) :
    Option Str × Catalog :=
  let gameID := generateGameID savePath
  let expandedPath := expandPath env savePath
  if fs.stat expandedPath = false then
    (some (str "la ruta de guardado no existe: " ++ expandedPath), catalog)
  else
    let game : GameInfo :=
      { id := gameID, name := name, platform := str "custom",
        savePaths := [savePath], patterns := patterns,
        lastBackup := 0, totalSize := 0, fileCount := 0,
        customPaths := [savePath], metadata := [] }
    let catalog1 := goMapSet catalog gameID game
    let catalog2 := goMapSet catalog1 gameID (updateGameInfo env fs cfg game)
    (saveDbErr, catalog2)

/-- Go method `ValidateGamePaths` (`main.go`): for an unknown id the pair of
empty lists, otherwise the expanded save paths partitioned by existence.
The method reads the catalog and never mutates it. -/
def validateGamePaths (env : Str → Str) (fs : FS) (catalog : Catalog) (gameID : Str) :
    List Str × List Str :=
  match mapLookup catalog gameID with
  | none => ([], [])
  | some game =>
    game.savePaths.foldl
      (fun (acc : List Str × List Str) p =>
        let expanded := expandPath env p
        if fs.stat expanded then (acc.1 ++ [expanded], acc.2)
        else (acc.1, acc.2 ++ [expanded]))
      ([], [])

/-!
Template resolver (`pcgw.go`).  Wiki-markup braces are written with the
escapes `\x7b` (opening brace) and `\x7d` (closing brace) in the string
literals below.
-/

/-- The section-opening marker of `parseSaveDataFromWikitext` (`pcgw.go`). -/
def saveSectionMarker : Str := str "\x7b\x7bGame data/saves"

/-- The path-template marker of `parseSaveDataFromWikitext` (`pcgw.go`). -/
def pTemplateMarker : Str := str "\x7b\x7bP|"

/-- The placeholder conversion table of `extractPathsFromLine` (`pcgw.go`).
Go iterates this map in an unspecified order; the templates are
non-overlapping and no replacement value contains a brace, so the result does
not depend on the order, fixed here as in the source. -/
def conversions : List (Str × Str) :=
  [(str "\x7b\x7bP|userprofile\x7d\x7d", str "%USERPROFILE%"),
   (str "\x7b\x7bP|appdata\x7d\x7d", str "%APPDATA%"),
   (str "\x7b\x7bP|localappdata\x7d\x7d", str "%LOCALAPPDATA%"),
   (str "\x7b\x7bP|game\x7d\x7d", str "%GAME_DIR%"),
   (str "\x7b\x7bP|documents\x7d\x7d", str "%USERPROFILE%\\Documents")]

/-- Go method `extractPathsFromLine` (`pcgw.go`): substitute the placeholder
table, split on the pipe delimiter, and keep trimmed segments that contain a
substituted token and no remaining raw template opener. -/
def extractPathsFromLine (line : Str) : List Str :=
  let convertedLine := conversions.foldl (fun l tc => goReplaceAll l tc.1 tc.2) line
  let parts := goSplitChar '|' convertedLine
  parts.foldl
    (fun acc part =>
      let part' := goTrimSpace part
      if goContains part' (str "%") && !goContains part' (str "\x7b\x7b") then acc ++ [part']
      else acc)
    []

/-- Go method `cleanPath` (`pcgw.go`): substitute the placeholder templates,
strip residual wiki markup, and trim whitespace and quotes. -/
def cleanPath (path : Str) : Str :=
  let p1 := goReplaceAll path (str "\x7b\x7bP|userprofile\x7d\x7d") (str "%USERPROFILE%")
  let p2 := goReplaceAll p1 (str "\x7b\x7bP|appdata\x7d\x7d") (str "%APPDATA%")
  let p3 := goReplaceAll p2 (str "\x7b\x7bP|localappdata\x7d\x7d") (str "%LOCALAPPDATA%")
  let p4 := goReplaceAll p3 (str "\x7b\x7bP|documents\x7d\x7d") (str "%USERPROFILE%\\Documents")
  let p5 := goReplaceAll p4 (str "\x7b\x7bP|game\x7d\x7d") (str "%GAME_DIR%")
  let p6 := goReplaceAll p5 (str "\x7b\x7b") []
  let p7 := goReplaceAll p6 (str "\x7d\x7d") []
  let p8 := goReplaceAll p7 (str "|") []
  goTrimChars (goTrimSpace p8) [Char.ofNat 34, Char.ofNat 39]

/-- Go method `extractFullPath` (`pcgw.go`): locate the first occurrence of
`pattern`, take a window of the pattern plus at most 100 further characters,
and clean the window's first line. -/
def extractFullPath (wikitext pattern : Str) : Str :=
  match goIndex wikitext pattern with
  | none => []
  | some index =>
    let start := index
    let stop := min (index + pattern.length + 100) wikitext.length
    let substring := (wikitext.drop start).take (stop - start)
    let lines := splitLines substring
    match lines with
    | [] => []
    | l :: _ => cleanPath l

/-- Go method `cleanAndDeduplicatePaths` (`pcgw.go`): re-clean every path and
keep the non-empty ones, first occurrence first (Go's `seen` set is the
membership test on the accumulated result). -/
def cleanAndDeduplicatePaths (paths : List Str) : List Str :=
  paths.foldl
    (fun result p =>
      let cleaned := cleanPath p
      if cleaned ≠ [] && !result.contains cleaned then result ++ [cleaned] else result)
    []

/-- The fallback literal patterns of `parseSaveDataFromWikitext` (`pcgw.go`). -/
def commonPatterns : List Str :=
  [str "\x7b\x7bP|userprofile\x7d\x7d\\Documents\\My Games\\",
   str "\x7b\x7bP|appdata\x7d\x7d\\",
   str "\x7b\x7bP|localappdata\x7d\x7d\\",
   str "\x7b\x7bP|userprofile\x7d\x7d\\Saved Games\\"]

/-- One line of the section scan of `parseSaveDataFromWikitext` (`pcgw.go`):
state is (inside save section, collected paths). -/
def parseScanStep (st : Bool × List Str) (rawLine : Str) : Bool × List Str :=
  let line := goTrimSpace rawLine
  if goContains line saveSectionMarker then (true, st.2)
  else if st.1 && (str "\x7d\x7d").isPrefixOf line then (false, st.2)
  else if st.1 && goContains line pTemplateMarker then (st.1, st.2 ++ extractPathsFromLine line)
  else st

/-- Go method `parseSaveDataFromWikitext` (`pcgw.go`): the line-wise section
scan, then the fallback common-pattern extraction over the whole markup, then
cleaning and deduplication.  Total by construction: it always returns a
(possibly empty) list and never fails. -/
def parseSaveDataFromWikitext (wikitext : Str) : List Str :=
  let lines := splitLines wikitext
  let scanned := (lines.foldl parseScanStep (false, [])).2
  let withCommon := commonPatterns.foldl
    (fun acc pattern =>
      if goContains wikitext pattern then
        let path := extractFullPath wikitext pattern
        if path ≠ [] then acc ++ [path] else acc
      else acc)
    scanned
  cleanAndDeduplicatePaths withCommon

/-!
Concrete fixtures used by theorem statements and witnesses.
-/

/-- Wiki markup whose save template sits between the section markers: the
opening marker line, the path line, and the closing line — repeated twice to
exercise deduplication. -/
def markupSection : Str :=
  str "\x7b\x7bGame data/saves|Windows|\n\x7b\x7bP|userprofile\x7d\x7d\\Documents\\My Games\\Foo\n\x7d\x7d\n\x7b\x7bGame data/saves|Windows|\n\x7b\x7bP|userprofile\x7d\x7d\\Documents\\My Games\\Foo\n\x7d\x7d"

/-- The same save template written on a single line, twice: the section scan
skips marker lines, and the fallback common-pattern extraction recovers the
path. -/
def markupInline : Str :=
  str "\x7b\x7bGame data/saves|Windows|\x7b\x7bP|userprofile\x7d\x7d\\Documents\\My Games\\Foo\x7d\x7d\n\x7b\x7bGame data/saves|Windows|\x7b\x7bP|userprofile\x7d\x7d\\Documents\\My Games\\Foo\x7d\x7d"

/-- Twenty-five distinct file names that match no save pattern and contain no
keyword. -/
def photoFiles : List FileEntry :=
  (List.range 25).map (fun i => { name := str "photo" ++ (Nat.repr i).data ++ str ".png", isDir := false })

/-- An environment view in which every variable is absent (`os.Getenv`
returns the empty string). -/
def envAbsent : Str → Str := fun _ => []

/-- A filesystem oracle on which nothing exists and every listing is empty. -/
def fsEmpty : FS :=
  { stat := fun _ => false, readDir := fun _ => none,
    dirsUnder := fun _ => [], walkFiles := fun _ => [] }

/-- A sample configuration for the witnesses. -/
def cfgSample : BackupConfig :=
  { backupDir := str "/backups", maxBackups := 10, compressionEnabled := true,
    excludePatterns := [str "*.tmp", str "*.log", str "*.cache", str "*.lock"] }

/-- A sample user-edited record for the witnesses. -/
def gameSample : GameInfo :=
  { id := str "foo", name := str "Foo", platform := str "custom",
    savePaths := [str "/data/foo"], patterns := [str "*.sav"],
    lastBackup := 0, totalSize := 7, fileCount := 2,
    customPaths := [str "/a"], metadata := [(str "note", str "mine")] }

/-- A one-record catalog for the witnesses. -/
def catalogSample : Catalog := [(str "foo", gameSample)]

/-- A `CreateBackup` effect oracle on which every archive step succeeds but
the pruning `os.ReadDir` fails. -/
def effPruneFails : BackupFS :=
  { mkdirErr := none, zipErr := none, mkdirBackupPathErr := none, folderErr := none,
    backupDirListing := none, saveDbErr := none, now := 42 }

/-!
Helper lemmas about the Go string model.
-/

/-- Boolean prefix test agrees with the `<+:` relation on `List Char`. -/
theorem isPrefixOf_true_iff (l₁ l₂ : Str) : l₁.isPrefixOf l₂ = true ↔ l₁ <+: l₂ :=
  List.isPrefixOf_iff_prefix

/-- The `goContains` test agrees with the infix relation `<:+:`. -/
theorem goContains_iff (s sub : Str) : goContains s sub = true ↔ sub <:+: s := by
  induction s with
  | nil =>
    simp only [goContains, List.isEmpty_iff]
    constructor
    · rintro rfl; exact List.nil_infix
    · intro h; exact List.eq_nil_of_infix_nil h
  | cons c cs ih =>
    simp only [goContains, Bool.or_eq_true, ih, isPrefixOf_true_iff]
    constructor
    · rintro (h | h)
      · exact h.isInfix
      · exact h.trans (List.infix_cons (List.infix_refl cs))
    · intro h
      rcases h with ⟨pre, post, heq⟩
      cases pre with
      | nil => left; exact ⟨post, by simpa using heq⟩
      | cons p ps =>
        right
        simp only [List.cons_append, List.cons.injEq] at heq
        exact ⟨ps, post, by simpa [List.append_assoc] using heq.2⟩

/-- Every piece returned by `splitLines` starts as a prefix and continues as
infixes of the input. -/
theorem splitLines_head_tail (s : Str) :
    ∃ h t, splitLines s = h :: t ∧ h <+: s ∧ ∀ l ∈ t, l <:+: s := by
  induction s with
  | nil => exact ⟨[], [], rfl, List.nil_prefix, by simp⟩
  | cons c cs ih =>
    obtain ⟨h, t, heq, hpre, htail⟩ := ih
    have hall : ∀ l ∈ splitLines cs, l <:+: cs := by
      intro l hl
      rw [heq] at hl
      rcases List.mem_cons.mp hl with rfl | hl'
      · exact hpre.isInfix
      · exact htail l hl'
    by_cases hc : c = '\n'
    · subst hc
      refine ⟨[], splitLines cs, ?_, List.nil_prefix, ?_⟩
      · simp [splitLines, goSplitChar]
      · exact fun l hl => (hall l hl).trans (List.infix_cons (List.infix_refl cs))
    · refine ⟨c :: h, t, ?_, ?_, ?_⟩
      · show goSplitChar '\n' (c :: cs) = (c :: h) :: t
        unfold goSplitChar
        rw [if_neg hc]
        have : goSplitChar '\n' cs = h :: t := heq
        rw [this]
      · exact List.cons_prefix_cons.mpr ⟨rfl, hpre⟩
      · exact fun l hl => (htail l hl).trans (List.infix_cons (List.infix_refl cs))

/-- Every line of a split is an infix of the input. -/
theorem mem_splitLines_within (s l : Str) (hl : l ∈ splitLines s) : l <:+: s := by
  obtain ⟨h, t, heq, hpre, htail⟩ := splitLines_head_tail s
  rw [heq] at hl
  rcases List.mem_cons.mp hl with rfl | hl'
  · exact hpre.isInfix
  · exact htail l hl'

/-- Trimming white space yields an infix of the input. -/
theorem goTrimSpace_within (l : Str) : goTrimSpace l <:+: l := by
  unfold goTrimSpace
  have h1 : l.dropWhile goIsSpace <:+ l := List.dropWhile_suffix _
  have h2 : (l.dropWhile goIsSpace).reverse.dropWhile goIsSpace <:+
      (l.dropWhile goIsSpace).reverse := List.dropWhile_suffix _
  have h3 : ((l.dropWhile goIsSpace).reverse.dropWhile goIsSpace).reverse <+:
      l.dropWhile goIsSpace := List.reverse_suffix.mp (by simpa using h2)
  exact h3.isInfix.trans h1.isInfix

/-- Containment transports along the infix relation. -/
theorem goContains_mono (s₁ s₂ sub : Str) (h : goContains s₁ sub = true)
    (hinf : s₁ <:+: s₂) : goContains s₂ sub = true :=
  (goContains_iff s₂ sub).mpr (((goContains_iff s₁ sub).mp h).trans hinf)

/-!
Helper lemmas about the catalog map model.
-/

/-- Writing one key leaves the lookups of every other key unchanged. -/
theorem mapLookup_goMapSet_ne (c : Catalog) (k id : Str) (v : GameInfo) (hne : k ≠ id) :
    mapLookup (goMapSet c k v) id = mapLookup c id := by
  induction c with
  | nil => simp [goMapSet, mapLookup, hne]
  | cons p rest ih =>
    obtain ⟨k', v'⟩ := p
    by_cases hk : k' = k
    · subst hk
      simp [goMapSet, mapLookup, hne, ih]
    · simp only [goMapSet, if_neg hk]
      by_cases hid : k' = id
      · simp [mapLookup, hid]
      · simp [mapLookup, hid, ih]

/-- Writing a key makes its lookup return the written value. -/
theorem mapLookup_goMapSet_self (c : Catalog) (k : Str) (v : GameInfo) :
    mapLookup (goMapSet c k v) k = some v := by
  induction c with
  | nil => simp [goMapSet, mapLookup]
  | cons p rest ih =>
    obtain ⟨k', v'⟩ := p
    by_cases hk : k' = k
    · subst hk; simp [goMapSet, mapLookup]
    · simp [goMapSet, mapLookup, hk, ih]

/-- A guarded insert (only performed when the inserted key is absent) cannot
disturb a key that is present. -/
theorem mapLookup_insert_guarded (c : Catalog) (k id : Str) (v g : GameInfo)
    (hP : mapLookup c id = some g) (hnew : (mapLookup c k).isSome = false) :
    mapLookup (goMapSet c k v) id = some g := by
  have hne : k ≠ id := by
    intro h
    subst h
    rw [hP] at hnew
    simp at hnew
  rw [mapLookup_goMapSet_ne c k id v hne]
  exact hP

/-- Folds whose step preserves a catalog property preserve it globally. -/
theorem foldl_preserve {β : Type} (P : Catalog → Prop) (step : Catalog → β → Catalog)
    (hstep : ∀ c x, P c → P (step c x)) :
    ∀ (xs : List β) (c : Catalog), P c → P (xs.foldl step c) := by
  intro xs
  induction xs with
  | nil => intro c hc; exact hc
  | cons x xs ih => intro c hc; exact ih (step c x) (hstep c x hc)

/-- Mapping a value transformation over the catalog acts pointwise on
lookups. -/
theorem mapLookup_map (c : Catalog) (id : Str) (f : GameInfo → GameInfo) :
    mapLookup (c.map (fun entry => (entry.1, f entry.2))) id = (mapLookup c id).map f := by
  induction c with
  | nil => simp [mapLookup]
  | cons p rest ih =>
    obtain ⟨k', v'⟩ := p
    by_cases hid : k' = id
    · simp [mapLookup, hid]
    · simp [mapLookup, hid, ih]

/-!
Helper lemmas about the classifier.
-/

/-- The compound decision rule collapses to its first disjunct. -/
theorem classifierDecision_eq_simple (totalFiles saveFileCount : Nat) :
    classifierDecision totalFiles saveFileCount = decide (saveFileCount ≥ 1) := by
  cases saveFileCount with
  | zero => simp [classifierDecision]
  | succ n => simp [classifierDecision, Nat.succ_le_succ]

/-- The first component of the counting fold is the initial score plus the
scores of the non-directory entries. -/
theorem classifierStep_foldl_fst (files : List FileEntry) :
    ∀ s t : Nat, (files.foldl classifierStep (s, t)).1 =
      s + ((files.filter (fun f => !f.isDir)).map (fun f => fileScore (goToLower f.name))).sum := by
  induction files with
  | nil => intro s t; simp
  | cons f fs ih =>
    intro s t
    cases h : f.isDir with
    | true => simp [classifierStep, h, ih]
    | false =>
      simp [classifierStep, h, ih (s + fileScore (goToLower f.name)) (t + 1)]
      omega

/-- A file scores positively exactly when it matches a save pattern or
contains a save keyword. -/
theorem fileScore_pos_iff (nm : Str) :
    1 ≤ fileScore nm ↔
      (SaveFilePatterns.any (fun pat => globMatch (goToLower pat) nm) = true ∨
        saveKeywords.any (fun kw => goContains nm kw) = true) := by
  unfold fileScore
  cases h1 : SaveFilePatterns.any (fun pat => globMatch (goToLower pat) nm) <;>
    cases h2 : saveKeywords.any (fun kw => goContains nm kw) <;> simp [h1, h2]

/-!
Helper lemmas about the retention sort.
-/

/-- Membership in a descending insertion. -/
theorem mem_insertByModTimeDesc (e a : BackupEntry) (l : List BackupEntry) :
    a ∈ insertByModTimeDesc e l ↔ a = e ∨ a ∈ l := by
  induction l with
  | nil => simp [insertByModTimeDesc]
  | cons f fs ih =>
    by_cases h : f.modTime < e.modTime
    · simp [insertByModTimeDesc, h]
      try tauto
    · simp [insertByModTimeDesc, h, ih]
      try tauto

/-- The sort permutes membership. -/
theorem mem_sortByModTimeDesc (a : BackupEntry) (l : List BackupEntry) :
    a ∈ sortByModTimeDesc l ↔ a ∈ l := by
  induction l with
  | nil => simp [sortByModTimeDesc]
  | cons f fs ih =>
    simp only [sortByModTimeDesc, List.foldr_cons] at *
    rw [mem_insertByModTimeDesc, ih, List.mem_cons]

/-- Inserting grows the length by one. -/
theorem length_insertByModTimeDesc (e : BackupEntry) (l : List BackupEntry) :
    (insertByModTimeDesc e l).length = l.length + 1 := by
  induction l with
  | nil => simp [insertByModTimeDesc]
  | cons f fs ih =>
    by_cases h : f.modTime < e.modTime <;> simp [insertByModTimeDesc, h, ih]

/-- The sort preserves length. -/
theorem length_sortByModTimeDesc (l : List BackupEntry) :
    (sortByModTimeDesc l).length = l.length := by
  induction l with
  | nil => rfl
  | cons f fs ih =>
    simp only [sortByModTimeDesc, List.foldr_cons] at *
    rw [length_insertByModTimeDesc, ih]
    simp

/-!
Claim theorems.
-/

/-- Claim C8: for every pair of counts (total non-directory files, scoring
files), the classifier's compound decision rule
`score >= 1 OR (totalFiles > 0 AND totalFiles < 20 AND score > 0)` is
equivalent to the simple rule `score >= 1`: the second disjunct never changes
the classification outcome. -/
theorem claim_C8_decision_rule_equivalence :
    ∀ totalFiles saveFileCount : Nat,
      classifierDecision totalFiles saveFileCount = decide (saveFileCount ≥ 1) :=
  classifierDecision_eq_simple

/-- Claim C10: `ValidateGamePaths` on an application id that is not in the
catalog does not fail: it returns the pair of two empty lists.  The embedded
function, like the Go method, only reads the catalog, so the catalog is
unchanged by construction. -/
theorem claim_C10_validate_unknown_id (env : Str → Str) (fs : FS) (catalog : Catalog)
    (gameID : Str) (h : mapLookup catalog gameID = none) :
    validateGamePaths env fs catalog gameID = ([], []) := by
  unfold validateGamePaths
  rw [h]

/-- Witness for claim C10 at the empty catalog and an arbitrary id. -/
theorem claim_C10_witness :
    mapLookup [] (str "ghost") = none
    ∧ validateGamePaths envAbsent fsEmpty [] (str "ghost") = ([], []) :=
  ⟨rfl, claim_C10_validate_unknown_id envAbsent fsEmpty [] (str "ghost") rfl⟩

/-- Claim C6: `AddCustomGame` with a save path whose expansion does not exist
fails with a validation error and returns the catalog unchanged: no record is
inserted or modified. -/
theorem claim_C6_add_custom_nonexistent (cfg : BackupConfig) (env : Str → Str) (fs : FS)
    (saveDbErr : Option Str) (catalog : Catalog) (name savePath : Str) (patterns : List Str)
    (h : fs.stat (expandPath env savePath) = false) :
    (addCustomGame cfg env fs saveDbErr catalog name savePath patterns).1 =
      some (str "la ruta de guardado no existe: " ++ expandPath env savePath)
    ∧ (addCustomGame cfg env fs saveDbErr catalog name savePath patterns).2 = catalog := by
  unfold addCustomGame
  simp [h]

/-- Witness for claim C6: `add-custom-application("Foo", "/nonexistent/path",
["*.sav"])` on a filesystem where that path does not exist. -/
theorem claim_C6_witness :
    fsEmpty.stat (expandPath envAbsent (str "/nonexistent/path")) = false
    ∧ (addCustomGame cfgSample envAbsent fsEmpty none [] (str "Foo")
        (str "/nonexistent/path") [str "*.sav"]).1 =
        some (str "la ruta de guardado no existe: " ++ expandPath envAbsent (str "/nonexistent/path"))
    ∧ (addCustomGame cfgSample envAbsent fsEmpty none [] (str "Foo")
        (str "/nonexistent/path") [str "*.sav"]).2 = [] := by
  refine ⟨rfl, ?_⟩
  exact claim_C6_add_custom_nonexistent cfgSample envAbsent fsEmpty none [] (str "Foo")
    (str "/nonexistent/path") [str "*.sav"] rfl

/-- Claim C5 counterexample: with `HOME` absent, `ExpandPath "$HOME/abc"`
leaves the placeholder verbatim instead of substituting the empty string (the
claim predicts the result `"/abc"`).  The same holds for `~` and the XDG
tokens: their substitution is guarded by a non-emptiness check, unlike the
Windows placeholders. -/
theorem claim_C5_counterexample :
    expandPath envAbsent (str "$HOME/abc") = str "$HOME/abc"
    ∧ expandPath envAbsent (str "$HOME/abc") ≠ str "/abc" := by
  constructor
  · decide
  · decide

/-- Claim C5 (amended): path expansion is a total pure function; the five
Windows placeholders with absent environment values are substituted by the
empty string (the whole expansion degenerates to the five Windows
replacements when every variable is absent), while `~`, `$HOME` and the XDG
tokens with absent values are left verbatim, and placeholders outside the
vocabulary are left verbatim. -/
theorem claim_C5_amended :
    (∀ path : Str,
      expandPath envAbsent path =
        goReplaceAll (goReplaceAll (goReplaceAll (goReplaceAll (goReplaceAll path
          (str "%USERPROFILE%") []) (str "%APPDATA%") []) (str "%LOCALAPPDATA%") [])
          (str "%PROGRAMFILES%") []) (str "%PROGRAMFILES(X86)%") [])
    ∧ expandPath envAbsent (str "%APPDATA%/EldenRing") = str "/EldenRing"
    ∧ expandPath envAbsent (str "$HOME/abc") = str "$HOME/abc"
    ∧ expandPath envAbsent (str "~/abc") = str "~/abc"
    ∧ expandPath envAbsent (str "$XDG_CONFIG_HOME/cfg") = str "$XDG_CONFIG_HOME/cfg"
    ∧ expandPath envAbsent (str "$XDG_DATA_HOME/data") = str "$XDG_DATA_HOME/data"
    ∧ expandPath envAbsent (str "%UNKNOWN%/x") = str "%UNKNOWN%/x" := by
  refine ⟨?_, by decide, by decide, by decide, by decide, by decide, by decide⟩
  intro path
  rfl

set_option maxRecDepth 200000 in
/-- Claim C4: parsing markup that carries the save template
`Game data/saves|Windows|P|userprofile ...\Documents\My Games\Foo` (between
section markers in `markupSection`, inline in `markupInline`, each repeated
twice) yields exactly one entry, the substituted path
`%USERPROFILE%\Documents\My Games\Foo`: the result contains the documented
string and deduplication leaves no duplicate entries. -/
theorem claim_C4_template_round_trip :
    parseSaveDataFromWikitext markupSection = [str "%USERPROFILE%\\Documents\\My Games\\Foo"]
    ∧ parseSaveDataFromWikitext markupInline = [str "%USERPROFILE%\\Documents\\My Games\\Foo"] := by
  constructor
  · decide
  · decide

/-- Claim C1: retention pruning considers exactly the entries whose name
contains the application id (first conjunct), removes exactly the sorted tail
beyond index `maxBackups - 1` (second conjunct counts it), and for
`maxBackups = 2` and three matching entries with pairwise distinct
modification times — in any enumeration order — removes exactly the single
oldest entry, leaving the two most recent. -/
theorem claim_C1_retention_pruning (gameID n1 n2 n3 : Str) (t1 t2 t3 : Nat)
    (h1 : goContains n1 gameID = true) (h2 : goContains n2 gameID = true)
    (h3 : goContains n3 gameID = true)
    (ht21 : t2 < t1) (ht32 : t3 < t2) :
    (∀ (maxBackups : Nat) (files : List BackupEntry) (e : BackupEntry),
        e ∈ cleanOldBackups maxBackups gameID files → goContains e.name gameID = true)
    ∧ (∀ (maxBackups : Nat) (files : List BackupEntry),
        (cleanOldBackups maxBackups gameID files).length =
          (files.filter (fun f => goContains f.name gameID)).length - maxBackups)
    ∧ cleanOldBackups 2 gameID [⟨n1, t1⟩, ⟨n2, t2⟩, ⟨n3, t3⟩] = [⟨n3, t3⟩]
    ∧ cleanOldBackups 2 gameID [⟨n3, t3⟩, ⟨n1, t1⟩, ⟨n2, t2⟩] = [⟨n3, t3⟩]
    ∧ cleanOldBackups 2 gameID [⟨n2, t2⟩, ⟨n3, t3⟩, ⟨n1, t1⟩] = [⟨n3, t3⟩] := by
  have hn12 : ¬ t1 < t2 := by omega
  have hn13 : ¬ t1 < t3 := by omega
  have hn23 : ¬ t2 < t3 := by omega
  refine ⟨?_, ?_, ?_, ?_, ?_⟩
  · intro maxBackups files e he
    unfold cleanOldBackups at he
    by_cases hle : (files.filter (fun f => goContains f.name gameID)).length ≤ maxBackups
    · rw [if_pos hle] at he
      simp at he
    · rw [if_neg hle] at he
      have hmem := List.mem_of_mem_drop he
      have hmem' := (mem_sortByModTimeDesc e _).mp hmem
      exact (List.mem_filter.mp hmem').2
  · intro maxBackups files
    unfold cleanOldBackups
    by_cases hle : (files.filter (fun f => goContains f.name gameID)).length ≤ maxBackups
    · rw [if_pos hle]
      simp
      omega
    · rw [if_neg hle]
      rw [List.length_drop, length_sortByModTimeDesc]
  · simp [cleanOldBackups, sortByModTimeDesc, insertByModTimeDesc,
      h1, h2, h3, ht21, ht32, hn12, hn13, hn23]
  · simp [cleanOldBackups, sortByModTimeDesc, insertByModTimeDesc,
      h1, h2, h3, ht21, ht32, hn12, hn13, hn23]
  · simp [cleanOldBackups, sortByModTimeDesc, insertByModTimeDesc,
      h1, h2, h3, ht21, ht32, hn12, hn13, hn23]

/-- Witness for claim C1 at a concrete id, names and times. -/
theorem claim_C1_witness :
    cleanOldBackups 2 (str "game")
      [⟨str "game_1", 30⟩, ⟨str "game_2", 20⟩, ⟨str "game_3", 10⟩] = [⟨str "game_3", 10⟩]
    ∧ cleanOldBackups 2 (str "game")
      [⟨str "game_3", 10⟩, ⟨str "game_1", 30⟩, ⟨str "game_2", 20⟩] = [⟨str "game_3", 10⟩] := by
  have h := claim_C1_retention_pruning (str "game") (str "game_1") (str "game_2") (str "game_3")
    30 20 10 (by decide) (by decide) (by decide) (by decide) (by decide)
  exact ⟨h.2.2.1, h.2.2.2.1⟩

/-- Claim C3: the save-directory classifier returns true exactly when some
non-directory entry matches a fixed glob pattern or contains a fixed keyword
(both case-insensitive, the name being lowercased first); a directory with the
single file `save1.sav` classifies as a save directory, an empty directory
does not, 25 files matching nothing do not, and an enumeration error yields
false. -/
theorem claim_C3_classifier :
    (∀ files : List FileEntry,
      looksLikeSaveDirectory (some files) = true ↔
        ∃ f ∈ files, f.isDir = false ∧
          (SaveFilePatterns.any (fun pat => globMatch (goToLower pat) (goToLower f.name)) = true ∨
            saveKeywords.any (fun kw => goContains (goToLower f.name) kw) = true))
    ∧ looksLikeSaveDirectory (some [{ name := str "save1.sav", isDir := false }]) = true
    ∧ looksLikeSaveDirectory (some []) = false
    ∧ looksLikeSaveDirectory (some photoFiles) = false
    ∧ looksLikeSaveDirectory none = false := by
  refine ⟨?_, by decide, by decide, by decide, rfl⟩
  intro files
  show classifierDecision (files.foldl classifierStep (0, 0)).2
      (files.foldl classifierStep (0, 0)).1 = true ↔ _
  rw [classifierDecision_eq_simple, decide_eq_true_eq, classifierStep_foldl_fst files 0 0,
    Nat.zero_add]
  constructor
  · intro hsum
    have hne : ((files.filter (fun f => !f.isDir)).map
        (fun f => fileScore (goToLower f.name))).sum ≠ 0 := by omega
    rw [Ne, List.sum_eq_zero_iff] at hne
    push_neg at hne
    obtain ⟨x, hx, hxne⟩ := hne
    obtain ⟨f, hf, rfl⟩ := List.mem_map.mp hx
    obtain ⟨hfmem, hdir⟩ := List.mem_filter.mp hf
    refine ⟨f, hfmem, by simpa using hdir, ?_⟩
    exact (fileScore_pos_iff (goToLower f.name)).mp (Nat.one_le_iff_ne_zero.mpr hxne)
  · rintro ⟨f, hfmem, hdir, hmatch⟩
    have hpos : 1 ≤ fileScore (goToLower f.name) := (fileScore_pos_iff _).mpr hmatch
    have hf : f ∈ files.filter (fun f => !f.isDir) :=
      List.mem_filter.mpr ⟨hfmem, by simp [hdir]⟩
    have hx : fileScore (goToLower f.name) ∈
        (files.filter (fun f => !f.isDir)).map (fun f => fileScore (goToLower f.name)) :=
      List.mem_map_of_mem _ hf
    calc 1 ≤ fileScore (goToLower f.name) := hpos
      _ ≤ _ := List.single_le_sum (fun x _ => Nat.zero_le x) _ hx

/-- Claim C7: when the archive-creation steps of `CreateBackup` succeed, the
operation reports success (the database save outcome, here successful) and
stamps `LastBackup = now`, even when retention pruning fails: the pruning
error only appears in the log, never in the returned result. -/
theorem claim_C7_backup_success_despite_prune_failure (cfg : BackupConfig) (eff : BackupFS)
    (catalog : Catalog) (gameID : Str) (game : GameInfo)
    (hg : mapLookup catalog gameID = some game)
    (hmkdir : eff.mkdirErr = none)
    (harchive : archiveOutcome cfg eff = none)
    (hsave : eff.saveDbErr = none) :
    (createBackup cfg eff catalog gameID).1 = none
    ∧ mapLookup (createBackup cfg eff catalog gameID).2.1 gameID =
        some { game with lastBackup := eff.now }
    ∧ (eff.backupDirListing = none →
        (createBackup cfg eff catalog gameID).2.2 =
          [str "Error limpiando backups antiguos: " ++ str "error leyendo directorio de backups"]) := by
  simp only [createBackup, hg, hmkdir, harchive]
  refine ⟨hsave, mapLookup_goMapSet_self catalog gameID _, ?_⟩
  intro hnone
  simp [cleanOldBackupsErr, hnone]

/-- Witness for claim C7: all archive steps succeed, the pruning directory
read fails, and the backup is still reported successful with the stamp set. -/
theorem claim_C7_witness :
    mapLookup catalogSample (str "foo") = some gameSample
    ∧ effPruneFails.backupDirListing = none
    ∧ (createBackup cfgSample effPruneFails catalogSample (str "foo")).1 = none
    ∧ mapLookup (createBackup cfgSample effPruneFails catalogSample (str "foo")).2.1 (str "foo") =
        some { gameSample with lastBackup := effPruneFails.now } := by
  have h := claim_C7_backup_success_despite_prune_failure cfgSample effPruneFails catalogSample
    (str "foo") gameSample rfl rfl rfl rfl
  exact ⟨rfl, rfl, h.1, h.2.1⟩

/-- When no line of the input contains the section marker, the section scan
never enters a save section and collects nothing. -/
theorem parseScan_no_marker (lines : List Str)
    (h : ∀ l ∈ lines, goContains (goTrimSpace l) saveSectionMarker = false) :
    lines.foldl parseScanStep (false, ([] : List Str)) = (false, []) := by
  induction lines with
  | nil => rfl
  | cons l ls ih =>
    have hstep : parseScanStep (false, []) l = (false, []) := by
      simp [parseScanStep, h l (List.mem_cons_self l ls)]
    rw [List.foldl_cons, hstep]
    exact ih (fun l' hl' => h l' (List.mem_cons_of_mem l hl'))

/-- When the markup contains none of the fallback patterns, the fallback fold
leaves its accumulator unchanged. -/
theorem commonFold_skip (wikitext : Str) (pats : List Str) (acc : List Str)
    (h : ∀ pat ∈ pats, goContains wikitext pat = false) :
    pats.foldl
      (fun acc' pattern =>
        if goContains wikitext pattern then
          let path := extractFullPath wikitext pattern
          if path ≠ [] then acc' ++ [path] else acc'
        else acc')
      acc = acc := by
  induction pats with
  | nil => rfl
  | cons p ps ih =>
    rw [List.foldl_cons]
    have hp : goContains wikitext p = false := h p (List.mem_cons_self p ps)
    simp only [hp, Bool.false_eq_true, if_false]
    exact ih (fun p' hp' => h p' (List.mem_cons_of_mem p hp'))

/-- Claim C9: template parsing is total by construction (it always returns a
list and never raises), and markup containing neither the save-section
opening marker nor any of the fallback common-pattern literals yields the
empty list rather than a partial-parse failure. -/
theorem claim_C9_parse_degrades_to_empty (wikitext : Str)
    (hm : goContains wikitext saveSectionMarker = false)
    (hp : ∀ pat ∈ commonPatterns, goContains wikitext pat = false) :
    parseSaveDataFromWikitext wikitext = [] := by
  have hlines : ∀ l ∈ splitLines wikitext, goContains (goTrimSpace l) saveSectionMarker = false := by
    intro l hl
    by_contra hcon
    have htrue : goContains (goTrimSpace l) saveSectionMarker = true := by
      cases hx : goContains (goTrimSpace l) saveSectionMarker
      · exact absurd hx hcon
      · rfl
    have hfull : goContains wikitext saveSectionMarker = true :=
      goContains_mono (goTrimSpace l) wikitext saveSectionMarker htrue
        ((goTrimSpace_within l).trans (mem_splitLines_within wikitext l hl))
    rw [hm] at hfull
    exact Bool.false_ne_true hfull
  unfold parseSaveDataFromWikitext
  dsimp only
  rw [parseScan_no_marker (splitLines wikitext) hlines]
  rw [commonFold_skip wikitext commonPatterns _ hp]
  rfl

/-- Witness for claim C9 on markup with no save structure at all. -/
theorem claim_C9_witness :
    goContains (str "hello\nworld") saveSectionMarker = false
    ∧ (∀ pat ∈ commonPatterns, goContains (str "hello\nworld") pat = false)
    ∧ parseSaveDataFromWikitext (str "hello\nworld") = [] := by
  refine ⟨by decide, by decide, ?_⟩
  exact claim_C9_parse_degrades_to_empty (str "hello\nworld") (by decide) (by decide)

/-- Claim C2: a scan run never overwrites or replaces a record already
present under an id — only absent ids are inserted — and for every
pre-existing record the merge leaves every field except the stat refresh
(`totalSize`, `fileCount`) unchanged; in particular `customPaths` and
`metadata` are exactly preserved. -/
theorem claim_C2_scan_never_overwrites (env : Str → Str) (fs : FS) (cfg : BackupConfig)
    (catalog : Catalog) (id : Str) (g : GameInfo)
    (h : mapLookup catalog id = some g) :
    (∃ ts fc, mapLookup (scanForGames env fs cfg catalog) id =
        some { g with totalSize := ts, fileCount := fc })
    ∧ (mapLookup (scanForGames env fs cfg catalog) id).map GameInfo.customPaths =
        some g.customPaths
    ∧ (mapLookup (scanForGames env fs cfg catalog) id).map GameInfo.metadata =
        some g.metadata := by
  have hknown : mapLookup (scanKnown env fs catalog) id = some g := by
    unfold scanKnown
    refine foldl_preserve (fun c => mapLookup c id = some g) _ ?_ KnownGames catalog h
    intro c x hc
    dsimp only
    by_cases hsome : (mapLookup c x.1).isSome = true
    · rw [if_pos hsome]; exact hc
    · rw [if_neg hsome]
      by_cases hex : gameExists env fs x.2 = true
      · rw [if_pos hex]
        exact mapLookup_insert_guarded c x.1 id x.2 g hc (by simpa using hsome)
      · rw [if_neg hex]; exact hc
  have hdir : ∀ (path platform : Str) (c : Catalog), mapLookup c id = some g →
      mapLookup (scanDirectory fs path platform c) id = some g := by
    intro path platform c hc
    unfold scanDirectory
    by_cases hstat : fs.stat path = false
    · rw [if_pos hstat]; exact hc
    · rw [if_neg hstat]
      refine foldl_preserve (fun c => mapLookup c id = some g) _ ?_ (fs.dirsUnder path) c hc
      intro c' dir hc'
      dsimp only
      by_cases hlooks : looksLikeSaveDirectory (fs.readDir dir) = true
      · rw [if_pos hlooks]
        by_cases hsome : (mapLookup c' (generateGameID dir)).isSome = true
        · rw [if_pos hsome]; exact hc'
        · rw [if_neg hsome]
          exact mapLookup_insert_guarded c' (generateGameID dir) id _ g hc' (by simpa using hsome)
      · rw [if_neg hlooks]; exact hc'
  have h2 : mapLookup
      (CommonSavePaths.foldl
        (fun c platformPaths =>
          platformPaths.2.foldl
            (fun c' basePath => scanDirectory fs (expandPath env basePath) platformPaths.1 c')
            c)
        (scanKnown env fs catalog)) id = some g := by
    refine foldl_preserve (fun c => mapLookup c id = some g) _ ?_ CommonSavePaths _ hknown
    intro c pp hc
    dsimp only
    refine foldl_preserve (fun c => mapLookup c id = some g) _ ?_ pp.2 c hc
    intro c' bp hc'
    exact hdir (expandPath env bp) pp.1 c' hc'
  have hfinal : mapLookup (scanForGames env fs cfg catalog) id =
      some (updateGameInfo env fs cfg g) := by
    unfold scanForGames
    dsimp only
    rw [mapLookup_map, h2]
    rfl
  refine ⟨⟨(updateGameInfo env fs cfg g).totalSize, (updateGameInfo env fs cfg g).fileCount, ?_⟩,
    ?_, ?_⟩
  · rw [hfinal]; rfl
  · rw [hfinal]; rfl
  · rw [hfinal]; rfl

/-- Witness for claim C2 at a one-record catalog with user-entered custom
paths and metadata. -/
theorem claim_C2_witness :
    mapLookup catalogSample (str "foo") = some gameSample
    ∧ (∃ ts fc, mapLookup (scanForGames envAbsent fsEmpty cfgSample catalogSample) (str "foo") =
        some { gameSample with totalSize := ts, fileCount := fc })
    ∧ (mapLookup (scanForGames envAbsent fsEmpty cfgSample catalogSample) (str "foo")).map
        GameInfo.customPaths = some gameSample.customPaths
    ∧ (mapLookup (scanForGames envAbsent fsEmpty cfgSample catalogSample) (str "foo")).map
        GameInfo.metadata = some gameSample.metadata := by
  have h := claim_C2_scan_never_overwrites envAbsent fsEmpty cfgSample catalogSample
    (str "foo") gameSample rfl
  exact ⟨rfl, h.1, h.2.1, h.2.2⟩

end WineSave
